import Mathlib

/-!
Verification of the instance-upgrade orchestrator of `src/portable/upgrade.rs`
(edgedb-cli). The Rust functions are shallowly embedded as pure Lean functions
over an explicit filesystem state. External collaborators (package install,
service control, the wire-protocol dump/restore client, the cloud REST client)
are modelled by a success oracle, mirroring the fact that the orchestrator
treats them as black boxes. Every filesystem effect the code performs is
recorded in an event trace so that ordering properties can be stated.
-/

namespace EdgedbUpgrade

/-- Opaque content of an on-disk object at the dump destination. The code
distinguishes directories (removable with `remove_dir_all`) from plain files
(on which `remove_dir_all` fails with a not-a-directory error). -/
inductive FsNode where
  | file (content : Nat)
  | dir (content : Nat)
deriving DecidableEq, Repr

/-- `BackupMeta` record from `upgrade.rs`: a timestamp written inside the data
directory just before it is renamed aside. -/
structure BackupMeta where
  timestamp : Nat
deriving DecidableEq, Repr

/-- `UpgradeMeta` record from `upgrade.rs`: source/target versions plus start
time and process id, written to the upgrade-marker path. Versions are modelled
as naturals (a totally ordered value is all the orchestrator needs). -/
structure UpgradeMeta where
  source : Nat
  target : Nat
  started : Nat
  pid : Nat
deriving DecidableEq, Repr

/-- Model of the live data directory's contents: the opaque database payload
plus the individual files the orchestrator itself reads or writes
(`backup.json`, `instance_info.json`, `edbtlscert.pem`, `edbprivkey.pem`). -/
structure DataDir where
  base : Option Nat
  backupMeta : Option BackupMeta
  instanceMeta : Option Nat
  tlsCert : Option Nat
  tlsKey : Option Nat
deriving DecidableEq, Repr

/-- The `Paths` bundle of one instance: `data_dir`, `backup_dir`, `dump_path`
and `upgrade_marker`, each either absent or holding its current content. -/
structure Fs where
  dataDir : Option DataDir
  backupDir : Option DataDir
  dumpPath : Option FsNode
  upgradeMarker : Option UpgradeMeta
deriving DecidableEq, Repr

/-- Events recorded for each externally visible effect of the upgrade flow,
in the order the code performs them. -/
inductive Ev where
  | evInstall
  | evStartService (ok : Bool)
  | evRemoveOldDump
  | evDump
  | evStopService
  | evSpawnServer
  | evWriteMarker
  | evWriteBackupMeta
  | evRemoveBackupDir
  | evRenameDataDir
  | evCreateDataDir
  | evRestore
  | evWriteInstanceMeta
  | evCopyTlsCert
  | evCopyTlsKey
  | evRemoveMarker
  | evCreateService (ok : Bool)
  | evRestart
  | evPathCompatible
  | evPathIncompatible
deriving DecidableEq, Repr

/-- Errors of the local upgrade flow, one constructor per distinct `anyhow`
failure source in `upgrade.rs`. `needsRevert` models the distinguished
`ExitCode(exit_codes::NEEDS_REVERT)` produced when the reinit/restore phase
fails after the backup rename. -/
inductive UErr where
  | installFailed
  | dumpFailed
  | notADirectory
  | stopFailed
  | runstateFailed
  | writeFailed
  | alreadyInProgress
  | restoreFailed
  | tlsCopyFailed
  | needsRevert
  | restartFailed
  | projectAborted
  | noPackageFound
deriving DecidableEq, Repr

/-- Success oracle for the fallible external collaborators, plus the opaque
values they produce (dump content, current time, process id). -/
structure Oracle where
  installOk : Bool
  startOk : Bool
  runstateOk : Bool
  dumpOk : Bool
  stopOk : Bool
  restoreOk : Bool
  serviceOk : Bool
  restartOk : Bool
  freshDump : Nat
  now : Nat
  pid : Nat
deriving DecidableEq, Repr

/-- Execution state: the filesystem, the trace of effects so far, and the
lines printed to the operator. -/
structure St where
  fs : Fs
  trace : List Ev
  log : List String
deriving DecidableEq, Repr

/-- Initial state over a given filesystem, with empty trace and log. -/
def initSt (fs : Fs) : St := ⟨fs, [], []⟩

/-- Record one effect event. -/
def emit (e : Ev) (s : St) : St := { s with trace := s.trace ++ [e] }

/-- Record one line of operator-visible output. -/
def logMsg (m : String) (s : St) : St := { s with log := s.log ++ [m] }

/-- The revert hint printed when the restore phase fails, from
`upgrade_incompatible`: the operator command keyed by the instance name. -/
def revertHint (name : String) : String :=
  "To undo run:\n  edgedb instance revert -I \"" ++ name ++ "\""

/-- Warning logged when best-effort service registration fails. -/
def serviceWarning : String := "Error running EdgeDB as a service"

/-- Message echoed by the no-op branch of `upgrade_local_cmd`. -/
def upToDateMsg : String := "Already up to date."

/-- Diagnostic text attached to each error when it is reported. -/
def errorMsg : UErr → String
  | UErr.installFailed => "error installing EdgeDB"
  | UErr.dumpFailed => "error dumping instance"
  | UErr.notADirectory => "not a directory"
  | UErr.stopFailed => "error stopping instance"
  | UErr.runstateFailed => "error creating runstate dir"
  | UErr.writeFailed => "error writing metadata"
  | UErr.alreadyInProgress => "Upgrade is already in progress"
  | UErr.restoreFailed => "cannot restore"
  | UErr.tlsCopyFailed => "cannot copy TLS material"
  | UErr.needsRevert => "upgrade needs revert"
  | UErr.restartFailed => "error restarting instance"
  | UErr.projectAborted => "Upgrade aborted."
  | UErr.noPackageFound => "no package found according to your criteria"

/-- Shallow embedding of `dump_instance` (`upgrade.rs`). If something exists
at the dump destination (`fs::metadata(..).is_ok()`), the code removes it with
`remove_dir_all`, which per the std/tokio contract fails on a non-directory;
then it connects to the instance and runs `dump_all` with secrets included,
modelled by the oracle's `dumpOk` and producing the opaque `freshDump`. -/
def dump_instance (o : Oracle) (s : St) : St × Option UErr :=
  match s.fs.dumpPath with
  | some (FsNode.file _) => (s, some UErr.notADirectory)
  | some (FsNode.dir _) =>
    let s1 := emit Ev.evRemoveOldDump { s with fs := { s.fs with dumpPath := none } }
    if o.dumpOk then
      (emit Ev.evDump { s1 with fs := { s1.fs with dumpPath := some (FsNode.dir o.freshDump) } },
        none)
    else (s1, some UErr.dumpFailed)
  | none =>
    if o.dumpOk then
      (emit Ev.evDump { s with fs := { s.fs with dumpPath := some (FsNode.dir o.freshDump) } },
        none)
    else (s, some UErr.dumpFailed)

/-- Concrete all-success oracle used for concrete runs of the model. -/
def allOk : Oracle :=
  ⟨true, true, true, true, true, true, true, true, 9, 100, 42⟩

/-- Concrete pre-upgrade filesystem: a populated live data directory (with TLS
material), no backup, no marker, and a stale dump directory left at
`dump_path` by a previous run. -/
def fsLive : Fs :=
  ⟨some ⟨some 5, none, some 1, some 21, some 22⟩, none, some (FsNode.dir 3), none⟩

/-- C10 counterexample: with a plain file at the dump destination, the dump is
not produced and the stale file is not removed — `remove_dir_all` fails with a
not-a-directory error, contradicting the claim that any pre-existing file or
directory is removed recursively before the fresh dump is produced. -/
theorem C10_counterexample :
    (dump_instance allOk (initSt ⟨none, none, some (FsNode.file 3), none⟩)).2 =
        some UErr.notADirectory ∧
      (dump_instance allOk (initSt ⟨none, none, some (FsNode.file 3), none⟩)).1.fs.dumpPath =
        some (FsNode.file 3) ∧
      Ev.evDump ∉ (dump_instance allOk (initSt ⟨none, none, some (FsNode.file 3), none⟩)).1.trace := by
  decide

/-- C10 (amended): when the dump destination holds no plain file (it is absent
or a directory) and the dump operation succeeds, any pre-existing directory is
removed recursively before the new dump is produced, and the destination ends
up holding exactly the fresh dump. -/
theorem C10_dump_destination (o : Oracle) (fs : Fs)
    (hnf : ∀ c, fs.dumpPath ≠ some (FsNode.file c)) (hok : o.dumpOk = true) :
    (dump_instance o (initSt fs)).2 = none ∧
      (dump_instance o (initSt fs)).1.fs.dumpPath = some (FsNode.dir o.freshDump) ∧
      (dump_instance o (initSt fs)).1.trace =
        (if fs.dumpPath.isSome then [Ev.evRemoveOldDump] else []) ++ [Ev.evDump] := by
  unfold dump_instance
  match h : fs.dumpPath with
  | some (FsNode.file c) => exact absurd h (hnf c)
  | some (FsNode.dir c) =>
    simp [initSt, h, hok, emit]
  | none =>
    simp [initSt, h, hok, emit]

/-- C10 witness: evaluating the amended statement on a stale dump directory. -/
theorem C10_witness :
    (dump_instance allOk (initSt ⟨none, none, some (FsNode.dir 3), none⟩)).2 = none ∧
      (dump_instance allOk (initSt ⟨none, none, some (FsNode.dir 3), none⟩)).1.fs.dumpPath =
        some (FsNode.dir 9) ∧
      (dump_instance allOk (initSt ⟨none, none, some (FsNode.dir 3), none⟩)).1.trace =
        (if (Fs.dumpPath ⟨none, none, some (FsNode.dir 3), none⟩).isSome then
            [Ev.evRemoveOldDump]
          else []) ++ [Ev.evDump] :=
  C10_dump_destination allOk ⟨none, none, some (FsNode.dir 3), none⟩ (fun c => by simp)
    (by decide)

/-- Shallow embedding of `dump_and_stop` (`upgrade.rs`). The code first tries
`control::do_start`; on success it dumps and then stops the instance via
`control::do_stop`. If the service start fails it logs a warning and falls back
to ensuring the runstate directory and spawning the server process directly
around the dump (`cmd.background_for`). -/
def dump_and_stop (o : Oracle) (s : St) : St × Option UErr :=
  if o.startOk then
    let s1 := emit (Ev.evStartService true) s
    match dump_instance o s1 with
    | (s2, some e) => (s2, some e)
    | (s2, none) =>
      if o.stopOk then (emit Ev.evStopService s2, none) else (s2, some UErr.stopFailed)
  else
    let s1 := emit (Ev.evStartService false) s
    if o.runstateOk then dump_instance o (emit Ev.evSpawnServer s1)
    else (s1, some UErr.runstateFailed)

/-- Shallow embedding of `backup` (`upgrade.rs`). Bails out if the upgrade
marker already exists; otherwise writes the `UpgradeMeta` marker, writes
`backup.json` inside the live data directory (failing if the data directory is
absent, as `write_json` would), removes a stale `backup_dir` if present, and
renames `data_dir` to `backup_dir`. -/
def backup (instVer newVer : Nat) (o : Oracle) (s : St) : St × Option UErr :=
  if s.fs.upgradeMarker.isSome then (s, some UErr.alreadyInProgress)
  else
    let s1 := emit Ev.evWriteMarker
      { s with fs := { s.fs with upgradeMarker := some ⟨instVer, newVer, o.now, o.pid⟩ } }
    match s1.fs.dataDir with
    | none => (s1, some UErr.writeFailed)
    | some d =>
      let s2 := emit Ev.evWriteBackupMeta
        { s1 with fs := { s1.fs with dataDir := some { d with backupMeta := some ⟨o.now⟩ } } }
      let s3 :=
        if s2.fs.backupDir.isSome then
          emit Ev.evRemoveBackupDir { s2 with fs := { s2.fs with backupDir := none } }
        else s2
      (emit Ev.evRenameDataDir
        { s3 with fs := { s3.fs with backupDir := s3.fs.dataDir, dataDir := none } }, none)

/-- A freshly created, empty data directory. -/
def emptyDataDir : DataDir := ⟨none, none, none, none, none⟩

/-- Shallow embedding of `reinit_and_restore` (`upgrade.rs`). Recreates
`data_dir` (`create_dir_all`), ensures the runstate directory, spawns the new
binary in self-signed mode and restores from `dump_path` (collapsed into the
oracle's `restoreOk` plus the requirement that a dump directory is present),
then writes `instance_info.json` and copies the TLS certificate and private
key from `backup_dir` into the new data directory (`fs::copy` fails when the
source file is missing). -/
def reinit_and_restore (instMeta : Nat) (o : Oracle) (s : St) : St × Option UErr :=
  let d0 := s.fs.dataDir.getD emptyDataDir
  let s1 := emit Ev.evCreateDataDir { s with fs := { s.fs with dataDir := some d0 } }
  if o.runstateOk then
    if o.restoreOk then
      match s1.fs.dumpPath with
      | some (FsNode.dir c) =>
        let d1 : DataDir := { d0 with base := some c }
        let s2 := emit Ev.evRestore { s1 with fs := { s1.fs with dataDir := some d1 } }
        let d2 : DataDir := { d1 with instanceMeta := some instMeta }
        let s3 := emit Ev.evWriteInstanceMeta
          { s2 with fs := { s2.fs with dataDir := some d2 } }
        match s3.fs.backupDir with
        | some b =>
          match b.tlsCert with
          | some ct =>
            let d3 : DataDir := { d2 with tlsCert := some ct }
            let s4 := emit Ev.evCopyTlsCert { s3 with fs := { s3.fs with dataDir := some d3 } }
            match b.tlsKey with
            | some k =>
              let d4 : DataDir := { d3 with tlsKey := some k }
              (emit Ev.evCopyTlsKey { s4 with fs := { s4.fs with dataDir := some d4 } }, none)
            | none => (s4, some UErr.tlsCopyFailed)
          | none => (s3, some UErr.tlsCopyFailed)
        | none => (s3, some UErr.tlsCopyFailed)
      | _ => (s1, some UErr.restoreFailed)
    else (s1, some UErr.restoreFailed)
  else (s1, some UErr.runstateFailed)

/-- Shallow embedding of `upgrade_incompatible` (`upgrade.rs`): install the new
build, dump and stop, back the data directory up, reinit and restore; if the
reinit/restore/TLS phase fails, report the error, print the revert hint keyed
by the instance name and fail with the distinguished needs-revert status.
Otherwise delete the upgrade marker, register the service (best-effort, its
failure only logged) and restart the instance. -/
def upgrade_incompatible (name : String) (instVer pkgVer instMeta : Nat) (o : Oracle)
    (s : St) : St × Option UErr :=
  if o.installOk then
    let s1 := emit Ev.evInstall s
    match dump_and_stop o s1 with
    | (s2, some e) => (s2, some e)
    | (s2, none) =>
      match backup instVer pkgVer o s2 with
      | (s3, some e) => (s3, some e)
      | (s3, none) =>
        match reinit_and_restore instMeta o s3 with
        | (s4, some e) =>
          (logMsg (revertHint name) (logMsg (errorMsg e) s4), some UErr.needsRevert)
        | (s4, none) =>
          let s5 := emit Ev.evRemoveMarker { s4 with fs := { s4.fs with upgradeMarker := none } }
          let s6 := emit (Ev.evCreateService o.serviceOk) s5
          let s7 := if o.serviceOk then s6 else logMsg serviceWarning s6
          if o.restartOk then (emit Ev.evRestart s7, none) else (s7, some UErr.restartFailed)
  else (s, some UErr.installFailed)

/-- Shallow embedding of `upgrade_compatible` (`upgrade.rs`): install the new
build, rewrite `instance_info.json` inside the (untouched) data directory,
register the service best-effort and restart. -/
def upgrade_compatible (instMeta : Nat) (o : Oracle) (s : St) : St × Option UErr :=
  if o.installOk then
    let s1 := emit Ev.evInstall s
    match s1.fs.dataDir with
    | none => (s1, some UErr.writeFailed)
    | some d =>
      let s2 := emit Ev.evWriteInstanceMeta
        { s1 with fs := { s1.fs with dataDir := some { d with instanceMeta := some instMeta } } }
      let s3 := emit (Ev.evCreateService o.serviceOk) s2
      let s4 := if o.serviceOk then s3 else logMsg serviceWarning s3
      if o.restartOk then (emit Ev.evRestart s4, none) else (s4, some UErr.restartFailed)
  else (s, some UErr.installFailed)

/-- Command-line options of `upgrade_local_cmd` that drive the control flow:
`force`, `force_dump_restore`, and whether an explicit version-selecting
option was given (the second component of `Query::from_options`). -/
structure LocalCmd where
  force : Bool
  verOption : Bool
  forceDumpRestore : Bool
deriving DecidableEq, Repr

/-- Successful outcomes of the local upgrade command. -/
inductive LocalOutcome where
  | upToDate
  | delegatedWindows
  | upgraded
deriving DecidableEq, Repr

/-- Shallow embedding of `upgrade_local_cmd` (`upgrade.rs`). In source order:
`check_project` aborts when project directories reference the instance and
`force` is not set; on Windows the command is delegated to the Windows
implementation; package resolution may find nothing; when the resolved package
version is not newer than the instance and `force` is unset the command is a
no-op ("Already up to date."); otherwise the compatible executor runs exactly
when `pkg_ver.is_compatible(inst_ver)` holds, `force` together with an
explicit version option is not given, and `force_dump_restore` is unset — in
every other case the incompatible executor runs. The `is_compatible` relation
lives outside this crate and is passed as the boolean `compatible`. -/
def upgrade_local_cmd (name : String) (instVer instMeta : Nat) (projectDirs : List String)
    (isWindows : Bool) (pkgResolved : Option Nat) (compatible : Bool) (cmd : LocalCmd)
    (o : Oracle) (s : St) : St × Except UErr LocalOutcome :=
  if !projectDirs.isEmpty && !cmd.force then (s, Except.error UErr.projectAborted)
  else if isWindows then (s, Except.ok LocalOutcome.delegatedWindows)
  else
    match pkgResolved with
    | none => (s, Except.error UErr.noPackageFound)
    | some pkgVer =>
      if decide (pkgVer ≤ instVer) && !cmd.force then
        (logMsg upToDateMsg s, Except.ok LocalOutcome.upToDate)
      else if compatible && !(cmd.force && cmd.verOption) && !cmd.forceDumpRestore then
        match upgrade_compatible instMeta o (emit Ev.evPathCompatible s) with
        | (s1, none) => (s1, Except.ok LocalOutcome.upgraded)
        | (s1, some e) => (s1, Except.error e)
      else
        match upgrade_incompatible name instVer pkgVer instMeta o
            (emit Ev.evPathIncompatible s) with
        | (s1, none) => (s1, Except.ok LocalOutcome.upgraded)
        | (s1, some e) => (s1, Except.error e)

/-- Outcome tag of an upgrade, as in the `UpgradeAction` enum. -/
inductive UpgradeAction where
  | none
  | upgraded
  | cancelled
deriving DecidableEq, Repr

/-- The `UpgradeResult` record returned to the caller. -/
structure UpgradeResult where
  action : UpgradeAction
  prior_version : Nat
  requested_version : Nat
  available_upgrade : Option Nat
deriving DecidableEq, Repr

/-- Errors of the cloud upgrade flow. `confirmBroke` stands for whatever error
the caller-supplied confirmation callback returns; it is propagated verbatim. -/
inductive CErr where
  | instanceNotFound
  | versionResolveFailed
  | confirmBroke
  | upgradeRequestFailed
deriving DecidableEq, Repr

/-- One mutating request sent to the cloud control plane, as built by
`upgrade_cloud`: the `CloudInstanceUpgrade` payload. -/
structure CloudReq where
  org : String
  name : String
  version : Nat
  force : Bool
deriving DecidableEq, Repr

/-- Shallow embedding of `upgrade_cloud` (`upgrade.rs`). `found` is the result
of `find_cloud_instance_by_name` (the instance's current version), `resolved`
the result of resolving the target version against the cloud catalog, and
`confirm` the caller-supplied yes/no gate, which may itself fail. The second
component collects every mutating `upgrade_cloud_instance` request issued. -/
def upgrade_cloud (org name : String) (found : Option Nat) (resolved : Option Nat)
    (force : Bool) (confirm : Nat → Except CErr Bool) (upgradeOk : Bool) :
    Except CErr UpgradeResult × List CloudReq :=
  match found with
  | Option.none => (Except.error CErr.instanceNotFound, [])
  | some instVer =>
    match resolved with
    | Option.none => (Except.error CErr.versionResolveFailed, [])
    | some targetVer =>
      if decide (targetVer ≤ instVer) && !force then
        (Except.ok ⟨UpgradeAction.none, instVer, targetVer, Option.none⟩, [])
      else
        match confirm targetVer with
        | Except.error e => (Except.error e, [])
        | Except.ok false =>
          (Except.ok ⟨UpgradeAction.cancelled, instVer, targetVer, Option.none⟩, [])
        | Except.ok true =>
          if upgradeOk then
            (Except.ok ⟨UpgradeAction.upgraded, instVer, targetVer, Option.none⟩,
              [⟨org, name, targetVer, force⟩])
          else (Except.error CErr.upgradeRequestFailed, [⟨org, name, targetVer, force⟩])

/-- C8: cloud upgrade with the instance found at version `iv` and the target
resolved to `tv`: if `tv ≤ iv` and force is unset the result is the no-op
record and no mutating request is issued; otherwise, if the confirm callback
declines, the result is Cancelled and no mutating request is issued; otherwise
(callback accepts, remote call succeeds) exactly one mutating request is
issued and the result is Upgraded. Each result carries the prior version `iv`
and the requested version `tv`. -/
theorem C8_cloud_flow (org name : String) (iv tv : Nat) (force : Bool)
    (confirm : Nat → Except CErr Bool) (upgradeOk : Bool) :
    ((tv ≤ iv ∧ force = false) →
        upgrade_cloud org name (some iv) (some tv) force confirm upgradeOk =
          (Except.ok ⟨UpgradeAction.none, iv, tv, Option.none⟩, [])) ∧
      (¬(tv ≤ iv ∧ force = false) → confirm tv = Except.ok false →
        upgrade_cloud org name (some iv) (some tv) force confirm upgradeOk =
          (Except.ok ⟨UpgradeAction.cancelled, iv, tv, Option.none⟩, [])) ∧
      (¬(tv ≤ iv ∧ force = false) → confirm tv = Except.ok true → upgradeOk = true →
        upgrade_cloud org name (some iv) (some tv) force confirm upgradeOk =
          (Except.ok ⟨UpgradeAction.upgraded, iv, tv, Option.none⟩,
            [⟨org, name, tv, force⟩])) ∧
      (¬(tv ≤ iv ∧ force = false) → confirm tv = Except.ok true →
        (upgrade_cloud org name (some iv) (some tv) force confirm upgradeOk).2 =
          [⟨org, name, tv, force⟩]) := by
  refine ⟨fun h => ?_, fun h hc => ?_, fun h hc hok => ?_, fun h hc => ?_⟩
  · simp [upgrade_cloud, h.1, h.2]
  · rcases Decidable.em (tv ≤ iv) with hle | hle
    · have hf : force = true := by
        cases hforce : force
        · exact absurd ⟨hle, hforce⟩ h
        · rfl
      simp [upgrade_cloud, hf, hc]
    · simp [upgrade_cloud, hle, hc]
  · rcases Decidable.em (tv ≤ iv) with hle | hle
    · have hf : force = true := by
        cases hforce : force
        · exact absurd ⟨hle, hforce⟩ h
        · rfl
      simp [upgrade_cloud, hf, hc, hok]
    · simp [upgrade_cloud, hle, hc, hok]
  · rcases Decidable.em (tv ≤ iv) with hle | hle
    · have hf : force = true := by
        cases hforce : force
        · exact absurd ⟨hle, hforce⟩ h
        · rfl
      cases hok : upgradeOk <;> simp [upgrade_cloud, hf, hc, hok]
    · cases hok : upgradeOk <;> simp [upgrade_cloud, hle, hc, hok]

/-- C8 witness: the three branches evaluated at concrete versions 2 ≤ 3,
5 > 3 with a declining callback, and 5 > 3 with an accepting callback. -/
theorem C8_cloud_flow_witness :
    upgrade_cloud "org" "inst" (some 3) (some 2) false (fun _ => Except.ok true) true =
        (Except.ok ⟨UpgradeAction.none, 3, 2, Option.none⟩, []) ∧
      upgrade_cloud "org" "inst" (some 3) (some 5) false (fun _ => Except.ok false) true =
        (Except.ok ⟨UpgradeAction.cancelled, 3, 5, Option.none⟩, []) ∧
      upgrade_cloud "org" "inst" (some 3) (some 5) false (fun _ => Except.ok true) true =
        (Except.ok ⟨UpgradeAction.upgraded, 3, 5, Option.none⟩, [⟨"org", "inst", 5, false⟩]) :=
  ⟨(C8_cloud_flow "org" "inst" 3 2 false (fun _ => Except.ok true) true).1 (by decide),
    (C8_cloud_flow "org" "inst" 3 5 false (fun _ => Except.ok false) true).2.1
      (by decide) rfl,
    (C8_cloud_flow "org" "inst" 3 5 false (fun _ => Except.ok true) true).2.2.1
      (by decide) rfl rfl⟩

/-- C9: when the confirm callback is actually invoked (the no-op rule did not
apply) and itself returns an error, `upgrade_cloud` propagates that error and
issues no mutating remote request. -/
theorem C9_confirm_error (org name : String) (iv tv : Nat) (force : Bool)
    (confirm : Nat → Except CErr Bool) (upgradeOk : Bool) (e : CErr)
    (hno : ¬(tv ≤ iv ∧ force = false)) (hc : confirm tv = Except.error e) :
    upgrade_cloud org name (some iv) (some tv) force confirm upgradeOk =
      (Except.error e, []) := by
  rcases Decidable.em (tv ≤ iv) with hle | hle
  · have hf : force = true := by
      cases hforce : force
      · exact absurd ⟨hle, hforce⟩ hno
      · rfl
    simp [upgrade_cloud, hf, hc]
  · simp [upgrade_cloud, hle, hc]

/-- C9 witness: a failing callback at target 5 over current 3. -/
theorem C9_confirm_error_witness :
    upgrade_cloud "org" "inst" (some 3) (some 5) false
        (fun _ => Except.error CErr.confirmBroke) true =
      (Except.error CErr.confirmBroke, []) :=
  C9_confirm_error "org" "inst" 3 5 false (fun _ => Except.error CErr.confirmBroke) true
    CErr.confirmBroke (by decide) rfl

/-- Coarse steps of the incompatible-path state machine, at the granularity
used by the specification. -/
inductive UStep where
  | install
  | dumpStop
  | backup
  | reinit
  | restore
  | copyTls
  | deleteMarker
  | register
  | restart
deriving DecidableEq, Repr

/-- Map each trace event to the coarse step it completes (if any): the dump
marks Dump+Stop, the rename marks Backup, the data-directory creation marks
ReinitDataDir, the private-key copy completes CopyTLSMaterial. -/
def stepOf : Ev → Option UStep
  | Ev.evInstall => some UStep.install
  | Ev.evDump => some UStep.dumpStop
  | Ev.evRenameDataDir => some UStep.backup
  | Ev.evCreateDataDir => some UStep.reinit
  | Ev.evRestore => some UStep.restore
  | Ev.evCopyTlsKey => some UStep.copyTls
  | Ev.evRemoveMarker => some UStep.deleteMarker
  | Ev.evCreateService _ => some UStep.register
  | Ev.evRestart => some UStep.restart
  | _ => none

@[simp] theorem emit_fs (e : Ev) (s : St) : (emit e s).fs = s.fs := rfl

@[simp] theorem emit_trace (e : Ev) (s : St) : (emit e s).trace = s.trace ++ [e] := rfl

@[simp] theorem emit_log (e : Ev) (s : St) : (emit e s).log = s.log := rfl

@[simp] theorem logMsg_fs (m : String) (s : St) : (logMsg m s).fs = s.fs := rfl

@[simp] theorem logMsg_trace (m : String) (s : St) : (logMsg m s).trace = s.trace := rfl

@[simp] theorem logMsg_log (m : String) (s : St) : (logMsg m s).log = s.log ++ [m] := rfl

@[simp] theorem initSt_fs (fs : Fs) : (initSt fs).fs = fs := rfl

@[simp] theorem initSt_trace (fs : Fs) : (initSt fs).trace = [] := rfl

@[simp] theorem initSt_log (fs : Fs) : (initSt fs).log = [] := rfl

/-- A successful `dump_instance` leaves the filesystem unchanged except that
`dump_path` now holds the fresh dump, appends a trace whose only coarse step
is Dump+Stop, and prints nothing. -/
theorem dump_instance_success (o : Oracle) (s : St)
    (h : (dump_instance o s).2 = none) :
    ∃ tr, dump_instance o s =
        (⟨{ s.fs with dumpPath := some (FsNode.dir o.freshDump) }, s.trace ++ tr, s.log⟩,
          none) ∧
      tr.filterMap stepOf = [UStep.dumpStop] := by
  cases hd : s.fs.dumpPath with
  | none =>
    cases hdk : o.dumpOk
    · simp [dump_instance, hd, hdk] at h
    · refine ⟨[Ev.evDump], ?_, by simp [stepOf]⟩
      simp [dump_instance, hd, hdk, emit]
  | some nd =>
    cases nd with
    | file c => simp [dump_instance, hd] at h
    | dir c =>
      cases hdk : o.dumpOk
      · simp [dump_instance, hd, hdk] at h
      · refine ⟨[Ev.evRemoveOldDump, Ev.evDump], ?_, by simp [stepOf]⟩
        simp [dump_instance, hd, hdk, emit]

/-- `dump_and_stop` never touches `data_dir`, `backup_dir` or the upgrade
marker, whether it succeeds or fails. -/
theorem dump_and_stop_preserves (o : Oracle) (s : St) :
    (dump_and_stop o s).1.fs.dataDir = s.fs.dataDir ∧
      (dump_and_stop o s).1.fs.backupDir = s.fs.backupDir ∧
      (dump_and_stop o s).1.fs.upgradeMarker = s.fs.upgradeMarker := by
  have hdi : ∀ s' : St, (dump_instance o s').1.fs.dataDir = s'.fs.dataDir ∧
      (dump_instance o s').1.fs.backupDir = s'.fs.backupDir ∧
      (dump_instance o s').1.fs.upgradeMarker = s'.fs.upgradeMarker := by
    intro s'
    cases hd : s'.fs.dumpPath with
    | none => cases hdk : o.dumpOk <;> simp [dump_instance, hd, hdk, emit]
    | some nd =>
      cases nd with
      | file c => simp [dump_instance, hd]
      | dir c => cases hdk : o.dumpOk <;> simp [dump_instance, hd, hdk, emit]
  cases hst : o.startOk
  · cases hrs : o.runstateOk
    · simp [dump_and_stop, hst, hrs]
    · have hred : dump_and_stop o s =
          dump_instance o (emit Ev.evSpawnServer (emit (Ev.evStartService false) s)) := by
        simp [dump_and_stop, hst, hrs]
      rw [hred]
      simpa using hdi (emit Ev.evSpawnServer (emit (Ev.evStartService false) s))
  · rcases h1 : dump_instance o (emit (Ev.evStartService true) s) with ⟨s2, oe⟩
    have hp := hdi (emit (Ev.evStartService true) s)
    rw [h1] at hp
    simp only [emit_fs] at hp
    simp only [emit] at h1
    cases oe with
    | none =>
      cases hsp : o.stopOk
      · have hred : dump_and_stop o s = (s2, some UErr.stopFailed) := by
          simp [dump_and_stop, hst, hsp, emit, h1]
        rw [hred]
        exact hp
      · have hred : dump_and_stop o s = (emit Ev.evStopService s2, none) := by
          simp [dump_and_stop, hst, hsp, emit, h1]
        rw [hred]
        simpa using hp
    | some e =>
      have hred : dump_and_stop o s = (s2, some e) := by
        simp [dump_and_stop, hst, emit, h1]
      rw [hred]
      exact hp

/-- A successful `dump_and_stop` has the same effect on the filesystem as a
successful `dump_instance`, with only Dump+Stop as its coarse step. -/
theorem dump_and_stop_success (o : Oracle) (s : St)
    (h : (dump_and_stop o s).2 = none) :
    ∃ tr, dump_and_stop o s =
        (⟨{ s.fs with dumpPath := some (FsNode.dir o.freshDump) }, s.trace ++ tr, s.log⟩,
          none) ∧
      tr.filterMap stepOf = [UStep.dumpStop] := by
  cases hst : o.startOk
  · cases hrs : o.runstateOk
    · simp [dump_and_stop, hst, hrs] at h
    · have hred : dump_and_stop o s =
          dump_instance o (emit Ev.evSpawnServer (emit (Ev.evStartService false) s)) := by
        simp [dump_and_stop, hst, hrs]
      rw [hred] at h
      obtain ⟨tr, heq, hfm⟩ := dump_instance_success o _ h
      refine ⟨Ev.evStartService false :: Ev.evSpawnServer :: tr, ?_, ?_⟩
      · rw [hred, heq]
        simp [emit]
      · simp [stepOf, hfm]
  · rcases h1 : dump_instance o (emit (Ev.evStartService true) s) with ⟨s2, oe⟩
    have h' := h1
    simp only [emit] at h'
    cases oe with
    | some e =>
      have hred : dump_and_stop o s = (s2, some e) := by
        simp [dump_and_stop, hst, emit, h']
      rw [hred] at h
      exact absurd h (by simp)
    | none =>
      cases hsp : o.stopOk
      · have hred : dump_and_stop o s = (s2, some UErr.stopFailed) := by
          simp [dump_and_stop, hst, hsp, emit, h']
        rw [hred] at h
        exact absurd h (by simp)
      · have h2 : (dump_instance o (emit (Ev.evStartService true) s)).2 = none := by
          rw [h1]
        obtain ⟨tr, heq, hfm⟩ := dump_instance_success o _ h2
        have hx := heq.symm.trans h1
        rw [Prod.mk.injEq] at hx
        obtain ⟨hs2, -⟩ := hx
        have hred : dump_and_stop o s = (emit Ev.evStopService s2, none) := by
          simp [dump_and_stop, hst, hsp, emit, h']
        refine ⟨Ev.evStartService true :: (tr ++ [Ev.evStopService]), ?_, ?_⟩
        · rw [hred, ← hs2]
          simp [emit]
        · simp [stepOf, hfm]

/-- Full characterisation of `backup` when its marker precondition holds and
the data directory is live: it writes the marker, writes the backup metadata
into the data directory, removes a stale backup directory if one exists, and
renames the data directory to the backup directory — in that trace order —
after which `data_dir` is absent. -/
theorem backup_spec (iv nv : Nat) (o : Oracle) (s : St) (d : DataDir)
    (hm : s.fs.upgradeMarker = none) (hd : s.fs.dataDir = some d) :
    backup iv nv o s =
      (⟨⟨none, some { d with backupMeta := some ⟨o.now⟩ }, s.fs.dumpPath,
          some ⟨iv, nv, o.now, o.pid⟩⟩,
        s.trace ++ ([Ev.evWriteMarker, Ev.evWriteBackupMeta] ++
          (if s.fs.backupDir.isSome then [Ev.evRemoveBackupDir] else []) ++
          [Ev.evRenameDataDir]),
        s.log⟩, none) := by
  cases hb : s.fs.backupDir with
  | none => simp [backup, hm, hd, hb, emit]
  | some b => simp [backup, hm, hd, hb, emit]

/-- A successful `backup` implies its preconditions held, and its effect is
exactly the one of `backup_spec`; its only coarse step is Backup. -/
theorem backup_success (iv nv : Nat) (o : Oracle) (s : St)
    (h : (backup iv nv o s).2 = none) :
    ∃ d tr, s.fs.upgradeMarker = none ∧ s.fs.dataDir = some d ∧
      backup iv nv o s =
        (⟨⟨none, some { d with backupMeta := some ⟨o.now⟩ }, s.fs.dumpPath,
            some ⟨iv, nv, o.now, o.pid⟩⟩, s.trace ++ tr, s.log⟩, none) ∧
      tr.filterMap stepOf = [UStep.backup] := by
  cases hm : s.fs.upgradeMarker with
  | some m => simp [backup, hm] at h
  | none =>
    cases hd : s.fs.dataDir with
    | none => simp [backup, hm, hd, emit] at h
    | some d =>
      refine ⟨d, [Ev.evWriteMarker, Ev.evWriteBackupMeta] ++
        (if s.fs.backupDir.isSome then [Ev.evRemoveBackupDir] else []) ++
        [Ev.evRenameDataDir], rfl, rfl, backup_spec iv nv o s d hm hd, ?_⟩
      cases hb : s.fs.backupDir <;> simp [hb, stepOf]

/-- A successful `reinit_and_restore` implies a backup directory with TLS
material and a dump directory were present; it rebuilds `data_dir` from the
dump, the instance metadata and the TLS material, touches nothing else, and
its coarse steps are ReinitDataDir, Restore, CopyTLSMaterial in that order. -/
theorem reinit_success (im : Nat) (o : Oracle) (s : St)
    (h : (reinit_and_restore im o s).2 = none) :
    ∃ b c ct k, s.fs.backupDir = some b ∧ s.fs.dumpPath = some (FsNode.dir c) ∧
      b.tlsCert = some ct ∧ b.tlsKey = some k ∧
      o.runstateOk = true ∧ o.restoreOk = true ∧
      reinit_and_restore im o s =
        (⟨⟨some ⟨some c, (s.fs.dataDir.getD emptyDataDir).backupMeta, some im, some ct,
              some k⟩,
            s.fs.backupDir, s.fs.dumpPath, s.fs.upgradeMarker⟩,
          s.trace ++ [Ev.evCreateDataDir, Ev.evRestore, Ev.evWriteInstanceMeta,
            Ev.evCopyTlsCert, Ev.evCopyTlsKey],
          s.log⟩, none) ∧
      ([Ev.evCreateDataDir, Ev.evRestore, Ev.evWriteInstanceMeta, Ev.evCopyTlsCert,
          Ev.evCopyTlsKey] : List Ev).filterMap stepOf =
        [UStep.reinit, UStep.restore, UStep.copyTls] := by
  cases hrs : o.runstateOk
  · simp [reinit_and_restore, hrs] at h
  · cases hro : o.restoreOk
    · simp [reinit_and_restore, hrs, hro] at h
    · cases hdp : s.fs.dumpPath with
      | none => simp [reinit_and_restore, hrs, hro, hdp, emit] at h
      | some nd =>
        cases nd with
        | file c => simp [reinit_and_restore, hrs, hro, hdp, emit] at h
        | dir c =>
          cases hb : s.fs.backupDir with
          | none => simp [reinit_and_restore, hrs, hro, hdp, hb, emit] at h
          | some b =>
            cases hct : b.tlsCert with
            | none => simp [reinit_and_restore, hrs, hro, hdp, hb, hct, emit] at h
            | some ct =>
              cases hk : b.tlsKey with
              | none => simp [reinit_and_restore, hrs, hro, hdp, hb, hct, hk, emit] at h
              | some k =>
                refine ⟨b, c, ct, k, rfl, rfl, hct, hk, rfl, rfl, ?_, by simp [stepOf]⟩
                simp [reinit_and_restore, hrs, hro, hdp, hb, hct, hk, emit]

/-- `reinit_and_restore` never touches `backup_dir`, `dump_path` or the
upgrade marker, whether it succeeds or fails. -/
theorem reinit_preserves (im : Nat) (o : Oracle) (s : St) :
    (reinit_and_restore im o s).1.fs.backupDir = s.fs.backupDir ∧
      (reinit_and_restore im o s).1.fs.upgradeMarker = s.fs.upgradeMarker ∧
      (reinit_and_restore im o s).1.fs.dumpPath = s.fs.dumpPath := by
  cases hrs : o.runstateOk
  · simp [reinit_and_restore, hrs, emit]
  · cases hro : o.restoreOk
    · simp [reinit_and_restore, hrs, hro, emit]
    · cases hdp : s.fs.dumpPath with
      | none => simp [reinit_and_restore, hrs, hro, hdp, emit]
      | some nd =>
        cases nd with
        | file c => simp [reinit_and_restore, hrs, hro, hdp, emit]
        | dir c =>
          cases hb : s.fs.backupDir with
          | none => simp [reinit_and_restore, hrs, hro, hdp, hb, emit]
          | some b =>
            cases hct : b.tlsCert with
            | none => simp [reinit_and_restore, hrs, hro, hdp, hb, hct, emit]
            | some ct =>
              cases hk : b.tlsKey with
              | none => simp [reinit_and_restore, hrs, hro, hdp, hb, hct, hk, emit]
              | some k => simp [reinit_and_restore, hrs, hro, hdp, hb, hct, hk, emit]

/-- When the oracle makes the restore phase fail, or the backup directory
lacks the TLS certificate or key, `reinit_and_restore` fails. -/
theorem reinit_fails (im : Nat) (o : Oracle) (s : St) (b : DataDir)
    (hb : s.fs.backupDir = some b)
    (hfail : o.runstateOk = false ∨ o.restoreOk = false ∨ b.tlsCert = none ∨
      b.tlsKey = none) :
    (reinit_and_restore im o s).2 ≠ none := by
  intro h
  obtain ⟨b', c, ct, k, hb', hdp', hct, hk, hrs, hro, -, -⟩ := reinit_success im o s h
  rw [hb] at hb'
  obtain rfl : b = b' := Option.some.inj hb'
  rcases hfail with hf | hf | hf | hf
  · rw [hrs] at hf
    exact Bool.noConfusion hf
  · rw [hro] at hf
    exact Bool.noConfusion hf
  · rw [hct] at hf
    exact Option.noConfusion hf
  · rw [hk] at hf
    exact Option.noConfusion hf

/-- C2: when the marker precondition holds (no `upgrade_marker` yet) and the
data directory is live, the backup step writes the UpgradeMeta record to
`upgrade_marker`, then writes the BackupMeta record inside `data_dir`, then
deletes a pre-existing `backup_dir` recursively, then renames `data_dir` to
`backup_dir` — in exactly that order — and on return `data_dir` no longer
exists. -/
theorem C2_backup_effects (iv nv : Nat) (o : Oracle) (fs : Fs) (d : DataDir)
    (hm : fs.upgradeMarker = none) (hd : fs.dataDir = some d) :
    backup iv nv o (initSt fs) =
        (⟨⟨none, some { d with backupMeta := some ⟨o.now⟩ }, fs.dumpPath,
            some ⟨iv, nv, o.now, o.pid⟩⟩,
          [Ev.evWriteMarker, Ev.evWriteBackupMeta] ++
            (if fs.backupDir.isSome then [Ev.evRemoveBackupDir] else []) ++
            [Ev.evRenameDataDir],
          []⟩, none) ∧
      (backup iv nv o (initSt fs)).1.fs.dataDir = none := by
  have h := backup_spec iv nv o (initSt fs) d hm hd
  refine ⟨by simpa using h, ?_⟩
  rw [h]

/-- C2 witness: evaluating the backup step on the concrete live filesystem. -/
theorem C2_backup_effects_witness :
    backup 1 2 allOk (initSt fsLive) =
        (⟨⟨none, some ⟨some 5, some ⟨100⟩, some 1, some 21, some 22⟩, fsLive.dumpPath,
            some ⟨1, 2, 100, 42⟩⟩,
          [Ev.evWriteMarker, Ev.evWriteBackupMeta] ++
            (if fsLive.backupDir.isSome then [Ev.evRemoveBackupDir] else []) ++
            [Ev.evRenameDataDir],
          []⟩, none) ∧
      (backup 1 2 allOk (initSt fsLive)).1.fs.dataDir = none :=
  C2_backup_effects 1 2 allOk fsLive ⟨some 5, none, some 1, some 21, some 22⟩ rfl rfl

/-- Oracle that fails exactly the dump operation. -/
def dumpFailOracle : Oracle :=
  ⟨true, true, true, false, true, true, true, true, 9, 100, 42⟩

/-- C7: when the incompatible path's dump step fails (after a successful
install), the whole upgrade fails with that same error and `data_dir` and
`backup_dir` are exactly as they were before the attempt: the dump precedes
the backup rename, so no rename happened. -/
theorem C7_dump_failure (name : String) (iv pv im : Nat) (o : Oracle) (fs : Fs) (e : UErr)
    (hin : o.installOk = true)
    (hd : (dump_and_stop o (emit Ev.evInstall (initSt fs))).2 = some e) :
    (upgrade_incompatible name iv pv im o (initSt fs)).2 = some e ∧
      (upgrade_incompatible name iv pv im o (initSt fs)).1.fs.dataDir = fs.dataDir ∧
      (upgrade_incompatible name iv pv im o (initSt fs)).1.fs.backupDir = fs.backupDir := by
  rcases h1 : dump_and_stop o (emit Ev.evInstall (initSt fs)) with ⟨s2, oe⟩
  rw [h1] at hd
  obtain rfl : oe = some e := hd
  have hp := dump_and_stop_preserves o (emit Ev.evInstall (initSt fs))
  rw [h1] at hp
  simp only [emit_fs, initSt_fs] at hp
  have hred : upgrade_incompatible name iv pv im o (initSt fs) = (s2, some e) := by
    unfold upgrade_incompatible
    rw [if_pos hin]
    simp only [h1]
  rw [hred]
  exact ⟨rfl, hp.1, hp.2.1⟩

/-- C7 witness: a run whose dump fails on the concrete live filesystem leaves
`data_dir` and `backup_dir` untouched. -/
theorem C7_dump_failure_witness :
    (upgrade_incompatible "inst1" 1 2 7 dumpFailOracle (initSt fsLive)).2 =
        some UErr.dumpFailed ∧
      (upgrade_incompatible "inst1" 1 2 7 dumpFailOracle (initSt fsLive)).1.fs.dataDir =
        fsLive.dataDir ∧
      (upgrade_incompatible "inst1" 1 2 7 dumpFailOracle (initSt fsLive)).1.fs.backupDir =
        fsLive.backupDir :=
  C7_dump_failure "inst1" 1 2 7 dumpFailOracle fsLive UErr.dumpFailed rfl (by decide)

/-- C4 (amended): starting an incompatible upgrade while `upgrade_marker`
exists fails with the already-in-progress error once the dump phase has run,
and leaves `data_dir`, `backup_dir` and `upgrade_marker` unchanged — but
`dump_path` now holds the fresh dump, because the dump step runs before the
marker check inside `backup`. -/
theorem C4_marker_present (name : String) (iv pv im : Nat) (o : Oracle) (fs : Fs)
    (m : UpgradeMeta) (hm : fs.upgradeMarker = some m) (hin : o.installOk = true)
    (hd : (dump_and_stop o (emit Ev.evInstall (initSt fs))).2 = none) :
    (upgrade_incompatible name iv pv im o (initSt fs)).2 = some UErr.alreadyInProgress ∧
      (upgrade_incompatible name iv pv im o (initSt fs)).1.fs.dataDir = fs.dataDir ∧
      (upgrade_incompatible name iv pv im o (initSt fs)).1.fs.backupDir = fs.backupDir ∧
      (upgrade_incompatible name iv pv im o (initSt fs)).1.fs.upgradeMarker = some m ∧
      (upgrade_incompatible name iv pv im o (initSt fs)).1.fs.dumpPath =
        some (FsNode.dir o.freshDump) := by
  rcases h1 : dump_and_stop o (emit Ev.evInstall (initSt fs)) with ⟨s2, oe⟩
  rw [h1] at hd
  obtain rfl : oe = none := hd
  obtain ⟨tr1, heq1, -⟩ := dump_and_stop_success o _ (by rw [h1])
  have hx := heq1.symm.trans h1
  rw [Prod.mk.injEq] at hx
  obtain ⟨hs2, -⟩ := hx
  have hs2m : s2.fs.upgradeMarker = some m := by rw [← hs2]; simpa using hm
  have hs2d : s2.fs.dataDir = fs.dataDir := by rw [← hs2]; simp
  have hs2b : s2.fs.backupDir = fs.backupDir := by rw [← hs2]; simp
  have hs2p : s2.fs.dumpPath = some (FsNode.dir o.freshDump) := by rw [← hs2]
  have hbk : backup iv pv o s2 = (s2, some UErr.alreadyInProgress) := by
    unfold backup
    rw [if_pos (by rw [hs2m]; rfl)]
  have hred : upgrade_incompatible name iv pv im o (initSt fs) =
      (s2, some UErr.alreadyInProgress) := by
    unfold upgrade_incompatible
    rw [if_pos hin]
    simp only [h1, hbk]
  rw [hred]
  exact ⟨rfl, hs2d, hs2b, hs2m, hs2p⟩

/-- Concrete filesystem with a marker left by an earlier, unfinished attempt,
a live data directory, and a stale dump from that earlier attempt. -/
def fsMarked : Fs :=
  ⟨some ⟨some 5, none, some 1, some 21, some 22⟩, none, some (FsNode.dir 3),
    some ⟨1, 2, 50, 7⟩⟩

/-- C4 counterexample: with the marker present, the attempt does fail with the
already-in-progress error, but the `Paths` bundle is NOT byte-for-byte
unchanged: `dump_path` has been overwritten with the fresh dump, because
`dump_and_stop` runs before `backup` performs the marker check. -/
theorem C4_counterexample :
    (upgrade_incompatible "inst1" 1 2 7 allOk (initSt fsMarked)).2 =
        some UErr.alreadyInProgress ∧
      ¬((upgrade_incompatible "inst1" 1 2 7 allOk (initSt fsMarked)).1.fs.dumpPath =
        fsMarked.dumpPath) := by
  decide

/-- C4 witness: the amended statement evaluated on the marked filesystem. -/
theorem C4_marker_present_witness :
    (upgrade_incompatible "inst1" 1 2 7 allOk (initSt fsMarked)).2 =
        some UErr.alreadyInProgress ∧
      (upgrade_incompatible "inst1" 1 2 7 allOk (initSt fsMarked)).1.fs.dataDir =
        fsMarked.dataDir ∧
      (upgrade_incompatible "inst1" 1 2 7 allOk (initSt fsMarked)).1.fs.backupDir =
        fsMarked.backupDir ∧
      (upgrade_incompatible "inst1" 1 2 7 allOk (initSt fsMarked)).1.fs.upgradeMarker =
        some ⟨1, 2, 50, 7⟩ ∧
      (upgrade_incompatible "inst1" 1 2 7 allOk (initSt fsMarked)).1.fs.dumpPath =
        some (FsNode.dir 9) :=
  C4_marker_present "inst1" 1 2 7 allOk fsMarked ⟨1, 2, 50, 7⟩ rfl rfl (by decide)

/-- C5: when the reinit/restore/TLS-copy phase of an incompatible upgrade
fails (restore collaborator fails, runstate dir creation fails, or the TLS
certificate or key is missing from the backup), the executor performs no
rollback: the upgrade marker it wrote and the renamed backup directory are
still present, the exact operator revert command keyed by the instance name is
printed, and the run terminates with the distinguished needs-revert status. -/
theorem C5_needs_revert (name : String) (iv pv im : Nat) (o : Oracle) (fs : Fs)
    (d : DataDir) (hm : fs.upgradeMarker = none) (hdd : fs.dataDir = some d)
    (hin : o.installOk = true)
    (hd : (dump_and_stop o (emit Ev.evInstall (initSt fs))).2 = none)
    (hfail : o.runstateOk = false ∨ o.restoreOk = false ∨ d.tlsCert = none ∨
      d.tlsKey = none) :
    (upgrade_incompatible name iv pv im o (initSt fs)).2 = some UErr.needsRevert ∧
      (upgrade_incompatible name iv pv im o (initSt fs)).1.fs.upgradeMarker =
        some ⟨iv, pv, o.now, o.pid⟩ ∧
      (upgrade_incompatible name iv pv im o (initSt fs)).1.fs.backupDir =
        some { d with backupMeta := some ⟨o.now⟩ } ∧
      revertHint name ∈ (upgrade_incompatible name iv pv im o (initSt fs)).1.log := by
  rcases h1 : dump_and_stop o (emit Ev.evInstall (initSt fs)) with ⟨s2, oe⟩
  rw [h1] at hd
  obtain rfl : oe = none := hd
  obtain ⟨tr1, heq1, -⟩ := dump_and_stop_success o _ (by rw [h1])
  have hx := heq1.symm.trans h1
  rw [Prod.mk.injEq] at hx
  obtain ⟨hs2, -⟩ := hx
  have hs2m : s2.fs.upgradeMarker = none := by rw [← hs2]; simpa using hm
  have hs2d : s2.fs.dataDir = some d := by rw [← hs2]; simpa using hdd
  rcases h2 : backup iv pv o s2 with ⟨s3, oe2⟩
  have hxb := (backup_spec iv pv o s2 d hs2m hs2d).symm.trans h2
  rw [Prod.mk.injEq] at hxb
  obtain ⟨hs3, hoe2⟩ := hxb
  subst hoe2
  have hs3m : s3.fs.upgradeMarker = some ⟨iv, pv, o.now, o.pid⟩ := by rw [← hs3]
  have hs3b : s3.fs.backupDir = some { d with backupMeta := some ⟨o.now⟩ } := by rw [← hs3]
  rcases h3 : reinit_and_restore im o s3 with ⟨s4, oe3⟩
  have hfail' : (reinit_and_restore im o s3).2 ≠ none := by
    refine reinit_fails im o s3 { d with backupMeta := some ⟨o.now⟩ } hs3b ?_
    rcases hfail with hf | hf | hf | hf
    · exact Or.inl hf
    · exact Or.inr (Or.inl hf)
    · exact Or.inr (Or.inr (Or.inl (by simpa using hf)))
    · exact Or.inr (Or.inr (Or.inr (by simpa using hf)))
  rw [h3] at hfail'
  cases oe3 with
  | none => exact absurd rfl hfail'
  | some e3 =>
    have hpr4 : s4.fs.backupDir = s3.fs.backupDir ∧
        s4.fs.upgradeMarker = s3.fs.upgradeMarker := by
      have hpr := reinit_preserves im o s3
      rw [h3] at hpr
      exact ⟨hpr.1, hpr.2.1⟩
    have hred : upgrade_incompatible name iv pv im o (initSt fs) =
        (logMsg (revertHint name) (logMsg (errorMsg e3) s4), some UErr.needsRevert) := by
      unfold upgrade_incompatible
      rw [if_pos hin]
      simp only [h1, h2, h3]
    rw [hred]
    refine ⟨rfl, ?_, ?_, ?_⟩
    · rw [logMsg_fs, logMsg_fs, hpr4.2]
      exact hs3m
    · rw [logMsg_fs, logMsg_fs, hpr4.1]
      exact hs3b
    · simp

/-- Oracle that fails exactly the restore collaborator. -/
def restoreFailOracle : Oracle :=
  ⟨true, true, true, true, true, false, true, true, 9, 100, 42⟩

/-- C5 witness: a failing restore on the concrete live filesystem leaves the
marker and backup in place and prints the revert command for the instance. -/
theorem C5_needs_revert_witness :
    (upgrade_incompatible "inst1" 1 2 7 restoreFailOracle (initSt fsLive)).2 =
        some UErr.needsRevert ∧
      (upgrade_incompatible "inst1" 1 2 7 restoreFailOracle (initSt fsLive)).1.fs.upgradeMarker =
        some ⟨1, 2, 100, 42⟩ ∧
      (upgrade_incompatible "inst1" 1 2 7 restoreFailOracle (initSt fsLive)).1.fs.backupDir =
        some ⟨some 5, some ⟨100⟩, some 1, some 21, some 22⟩ ∧
      revertHint "inst1" ∈
        (upgrade_incompatible "inst1" 1 2 7 restoreFailOracle (initSt fsLive)).1.log :=
  C5_needs_revert "inst1" 1 2 7 restoreFailOracle fsLive
    ⟨some 5, none, some 1, some 21, some 22⟩ rfl rfl rfl (by decide)
    (Or.inr (Or.inl rfl))

/-- C3 (amended): every successful incompatible upgrade performs its coarse
steps in the order Install, Dump+Stop, Backup, ReinitDataDir, Restore,
CopyTLSMaterial, DeleteUpgradeMarker, RegisterService, Restart: the upgrade
marker is deleted after the TLS copy and metadata persistence but BEFORE
service registration and the final restart. -/
theorem C3_amended_order (name : String) (iv pv im : Nat) (o : Oracle) (fs : Fs)
    (h : (upgrade_incompatible name iv pv im o (initSt fs)).2 = none) :
    (upgrade_incompatible name iv pv im o (initSt fs)).1.trace.filterMap stepOf =
      [UStep.install, UStep.dumpStop, UStep.backup, UStep.reinit, UStep.restore,
        UStep.copyTls, UStep.deleteMarker, UStep.register, UStep.restart] := by
  cases hin : o.installOk
  · have hred : upgrade_incompatible name iv pv im o (initSt fs) =
        (initSt fs, some UErr.installFailed) := by
      unfold upgrade_incompatible
      rw [if_neg (by simp [hin])]
    rw [hred] at h
    exact Option.noConfusion h
  · rcases h1 : dump_and_stop o (emit Ev.evInstall (initSt fs)) with ⟨s2, oe1⟩
    cases oe1 with
    | some e =>
      have hred : upgrade_incompatible name iv pv im o (initSt fs) = (s2, some e) := by
        unfold upgrade_incompatible
        rw [if_pos hin]
        simp only [h1]
      rw [hred] at h
      exact Option.noConfusion h
    | none =>
      obtain ⟨tr1, heq1, hf1⟩ := dump_and_stop_success o _ (by rw [h1])
      have hx1 := heq1.symm.trans h1
      rw [Prod.mk.injEq] at hx1
      obtain ⟨hs2, -⟩ := hx1
      have hs2tr : s2.trace = Ev.evInstall :: tr1 := by
        rw [← hs2]
        simp [emit, initSt]
      rcases h2 : backup iv pv o s2 with ⟨s3, oe2⟩
      cases oe2 with
      | some e =>
        have hred : upgrade_incompatible name iv pv im o (initSt fs) = (s3, some e) := by
          unfold upgrade_incompatible
          rw [if_pos hin]
          simp only [h1, h2]
        rw [hred] at h
        exact Option.noConfusion h
      | none =>
        obtain ⟨d, tr2, -, -, heq2, hf2⟩ := backup_success iv pv o s2 (by rw [h2])
        have hx2 := heq2.symm.trans h2
        rw [Prod.mk.injEq] at hx2
        obtain ⟨hs3, -⟩ := hx2
        have hs3tr : s3.trace = s2.trace ++ tr2 := by rw [← hs3]
        rcases h3 : reinit_and_restore im o s3 with ⟨s4, oe3⟩
        cases oe3 with
        | some e =>
          have hred : upgrade_incompatible name iv pv im o (initSt fs) =
              (logMsg (revertHint name) (logMsg (errorMsg e) s4),
                some UErr.needsRevert) := by
            unfold upgrade_incompatible
            rw [if_pos hin]
            simp only [h1, h2, h3]
          rw [hred] at h
          exact Option.noConfusion h
        | none =>
          obtain ⟨b, c, ct, k, -, -, -, -, -, -, heq3, -⟩ := reinit_success im o s3
            (by rw [h3])
          have hx3 := heq3.symm.trans h3
          rw [Prod.mk.injEq] at hx3
          obtain ⟨hs4, -⟩ := hx3
          have hs4tr : s4.trace = s3.trace ++ [Ev.evCreateDataDir, Ev.evRestore,
              Ev.evWriteInstanceMeta, Ev.evCopyTlsCert, Ev.evCopyTlsKey] := by
            rw [← hs4]
          cases hrst : o.restartOk
          · have hsnd : (upgrade_incompatible name iv pv im o (initSt fs)).2 =
                some UErr.restartFailed := by
              unfold upgrade_incompatible
              rw [if_pos hin]
              simp only [h1, h2, h3]
              cases hsv : o.serviceOk <;> simp [hrst, hsv, emit, logMsg]
            rw [hsnd] at h
            exact Option.noConfusion h
          · have htr : (upgrade_incompatible name iv pv im o (initSt fs)).1.trace =
                s4.trace ++ [Ev.evRemoveMarker, Ev.evCreateService o.serviceOk,
                  Ev.evRestart] := by
              unfold upgrade_incompatible
              rw [if_pos hin]
              simp only [h1, h2, h3]
              cases hsv : o.serviceOk <;> simp [hrst, hsv, emit, logMsg]
            rw [htr, hs4tr, hs3tr, hs2tr]
            simp only [List.filterMap_append, List.filterMap_cons, List.filterMap_nil,
              stepOf, hf1, hf2]
            simp [stepOf]

/-- C3 counterexample: in a concrete fully successful incompatible upgrade the
upgrade marker is removed and the instance restarted, but the marker removal
does NOT come after the restart — it happens before service registration and
restart, contradicting the claim that the marker is deleted last. -/
theorem C3_counterexample :
    (upgrade_incompatible "inst1" 1 2 7 allOk (initSt fsLive)).2 = none ∧
      Ev.evRemoveMarker ∈ (upgrade_incompatible "inst1" 1 2 7 allOk (initSt fsLive)).1.trace ∧
      Ev.evRestart ∈ (upgrade_incompatible "inst1" 1 2 7 allOk (initSt fsLive)).1.trace ∧
      ¬((upgrade_incompatible "inst1" 1 2 7 allOk (initSt fsLive)).1.trace.indexOf
          Ev.evRestart <
        (upgrade_incompatible "inst1" 1 2 7 allOk (initSt fsLive)).1.trace.indexOf
          Ev.evRemoveMarker) := by
  decide

/-- C3 witness: the amended coarse-step order evaluated on the concrete
successful run. -/
theorem C3_amended_order_witness :
    (upgrade_incompatible "inst1" 1 2 7 allOk (initSt fsLive)).2 = none ∧
      (upgrade_incompatible "inst1" 1 2 7 allOk (initSt fsLive)).1.trace.filterMap stepOf =
        [UStep.install, UStep.dumpStop, UStep.backup, UStep.reinit, UStep.restore,
          UStep.copyTls, UStep.deleteMarker, UStep.register, UStep.restart] :=
  ⟨by decide, C3_amended_order "inst1" 1 2 7 allOk fsLive (by decide)⟩

/-- C6: a local upgrade invocation that resolves its target package to a
version not newer than the instance, with `force` unset, performs zero
filesystem mutation (the state is returned untouched, with an empty effect
trace) and reports "Already up to date." — regardless of how the version pair
would classify. -/
theorem C6_noop (name : String) (instVer instMeta pkgVer : Nat) (compatible : Bool)
    (cmd : LocalCmd) (o : Oracle) (fs : Fs)
    (hle : pkgVer ≤ instVer) (hforce : cmd.force = false) :
    upgrade_local_cmd name instVer instMeta [] false (some pkgVer) compatible cmd o
        (initSt fs) =
      (⟨fs, [], [upToDateMsg]⟩, Except.ok LocalOutcome.upToDate) := by
  simp [upgrade_local_cmd, hle, hforce, logMsg, initSt]

/-- C6 witness: target 2, current 3, no force, on the concrete filesystem
(with a compatibility flag that would otherwise select the incompatible
path). -/
theorem C6_noop_witness :
    upgrade_local_cmd "inst1" 3 7 [] false (some 2) false ⟨false, false, true⟩ allOk
        (initSt fsLive) =
      (⟨fsLive, [], [upToDateMsg]⟩, Except.ok LocalOutcome.upToDate) :=
  C6_noop "inst1" 3 7 2 false ⟨false, false, true⟩ allOk fsLive (by decide) rfl

/-- The trace of `dump_instance` only ever grows. -/
theorem dump_instance_trace (o : Oracle) (s : St) :
    ∃ t, (dump_instance o s).1.trace = s.trace ++ t := by
  cases hd : s.fs.dumpPath with
  | none =>
    cases hdk : o.dumpOk
    · exact ⟨[], by simp [dump_instance, hd, hdk]⟩
    · exact ⟨[Ev.evDump], by simp [dump_instance, hd, hdk, emit]⟩
  | some nd =>
    cases nd with
    | file c => exact ⟨[], by simp [dump_instance, hd]⟩
    | dir c =>
      cases hdk : o.dumpOk
      · exact ⟨[Ev.evRemoveOldDump], by simp [dump_instance, hd, hdk, emit]⟩
      · exact ⟨[Ev.evRemoveOldDump, Ev.evDump], by simp [dump_instance, hd, hdk, emit]⟩

/-- The trace of `dump_and_stop` only ever grows. -/
theorem dump_and_stop_trace (o : Oracle) (s : St) :
    ∃ t, (dump_and_stop o s).1.trace = s.trace ++ t := by
  cases hst : o.startOk
  · cases hrs : o.runstateOk
    · exact ⟨[Ev.evStartService false], by simp [dump_and_stop, hst, hrs, emit]⟩
    · have hred : dump_and_stop o s =
          dump_instance o (emit Ev.evSpawnServer (emit (Ev.evStartService false) s)) := by
        simp [dump_and_stop, hst, hrs]
      obtain ⟨t, ht⟩ :=
        dump_instance_trace o (emit Ev.evSpawnServer (emit (Ev.evStartService false) s))
      refine ⟨Ev.evStartService false :: Ev.evSpawnServer :: t, ?_⟩
      rw [hred, ht]
      simp [emit]
  · rcases h1 : dump_instance o (emit (Ev.evStartService true) s) with ⟨s2, oe⟩
    obtain ⟨t, ht⟩ := dump_instance_trace o (emit (Ev.evStartService true) s)
    rw [h1] at ht
    have h1' := h1
    simp only [emit] at h1'
    cases oe with
    | some e =>
      have hred : dump_and_stop o s = (s2, some e) := by
        simp [dump_and_stop, hst, emit, h1']
      refine ⟨Ev.evStartService true :: t, ?_⟩
      rw [hred]
      simpa using ht
    | none =>
      cases hsp : o.stopOk
      · have hred : dump_and_stop o s = (s2, some UErr.stopFailed) := by
          simp [dump_and_stop, hst, hsp, emit, h1']
        refine ⟨Ev.evStartService true :: t, ?_⟩
        rw [hred]
        simpa using ht
      · have hred : dump_and_stop o s = (emit Ev.evStopService s2, none) := by
          simp [dump_and_stop, hst, hsp, emit, h1']
        have ht' : s2.trace = (emit (Ev.evStartService true) s).trace ++ t := ht
        refine ⟨Ev.evStartService true :: (t ++ [Ev.evStopService]), ?_⟩
        rw [hred]
        simp [emit, ht']

/-- The trace of `backup` only ever grows. -/
theorem backup_trace (iv nv : Nat) (o : Oracle) (s : St) :
    ∃ t, (backup iv nv o s).1.trace = s.trace ++ t := by
  cases hm : s.fs.upgradeMarker with
  | some m => exact ⟨[], by simp [backup, hm]⟩
  | none =>
    cases hd : s.fs.dataDir with
    | none => exact ⟨[Ev.evWriteMarker], by simp [backup, hm, hd, emit]⟩
    | some d =>
      refine ⟨[Ev.evWriteMarker, Ev.evWriteBackupMeta] ++
        (if s.fs.backupDir.isSome then [Ev.evRemoveBackupDir] else []) ++
        [Ev.evRenameDataDir], ?_⟩
      rw [backup_spec iv nv o s d hm hd]

/-- The trace of `reinit_and_restore` only ever grows. -/
theorem reinit_trace (im : Nat) (o : Oracle) (s : St) :
    ∃ t, (reinit_and_restore im o s).1.trace = s.trace ++ t := by
  cases hrs : o.runstateOk
  · exact ⟨[Ev.evCreateDataDir], by simp [reinit_and_restore, hrs, emit]⟩
  · cases hro : o.restoreOk
    · exact ⟨[Ev.evCreateDataDir], by simp [reinit_and_restore, hrs, hro, emit]⟩
    · cases hdp : s.fs.dumpPath with
      | none =>
        exact ⟨[Ev.evCreateDataDir], by simp [reinit_and_restore, hrs, hro, hdp, emit]⟩
      | some nd =>
        cases nd with
        | file c =>
          exact ⟨[Ev.evCreateDataDir], by simp [reinit_and_restore, hrs, hro, hdp, emit]⟩
        | dir c =>
          cases hb : s.fs.backupDir with
          | none =>
            exact ⟨[Ev.evCreateDataDir, Ev.evRestore, Ev.evWriteInstanceMeta],
              by simp [reinit_and_restore, hrs, hro, hdp, hb, emit]⟩
          | some b =>
            cases hct : b.tlsCert with
            | none =>
              exact ⟨[Ev.evCreateDataDir, Ev.evRestore, Ev.evWriteInstanceMeta],
                by simp [reinit_and_restore, hrs, hro, hdp, hb, hct, emit]⟩
            | some ct =>
              cases hk : b.tlsKey with
              | none =>
                exact ⟨[Ev.evCreateDataDir, Ev.evRestore, Ev.evWriteInstanceMeta,
                  Ev.evCopyTlsCert],
                  by simp [reinit_and_restore, hrs, hro, hdp, hb, hct, hk, emit]⟩
              | some k =>
                exact ⟨[Ev.evCreateDataDir, Ev.evRestore, Ev.evWriteInstanceMeta,
                  Ev.evCopyTlsCert, Ev.evCopyTlsKey],
                  by simp [reinit_and_restore, hrs, hro, hdp, hb, hct, hk, emit]⟩

/-- The trace of `upgrade_incompatible` only ever grows. -/
theorem upgrade_incompatible_trace (name : String) (iv pv im : Nat) (o : Oracle)
    (s : St) :
    ∃ t, (upgrade_incompatible name iv pv im o s).1.trace = s.trace ++ t := by
  cases hin : o.installOk
  · exact ⟨[], by simp [upgrade_incompatible, hin]⟩
  · rcases h1 : dump_and_stop o (emit Ev.evInstall s) with ⟨s2, oe1⟩
    obtain ⟨t1, ht1⟩ := dump_and_stop_trace o (emit Ev.evInstall s)
    rw [h1] at ht1
    simp only [emit_trace] at ht1
    cases oe1 with
    | some e =>
      have hred : upgrade_incompatible name iv pv im o s = (s2, some e) := by
        unfold upgrade_incompatible
        rw [if_pos hin]
        simp only [h1]
      refine ⟨[Ev.evInstall] ++ t1, ?_⟩
      rw [hred]
      simpa [List.append_assoc] using ht1
    | none =>
      rcases h2 : backup iv pv o s2 with ⟨s3, oe2⟩
      obtain ⟨t2, ht2⟩ := backup_trace iv pv o s2
      rw [h2] at ht2
      have ht2' : s3.trace = s2.trace ++ t2 := ht2
      cases oe2 with
      | some e =>
        have hred : upgrade_incompatible name iv pv im o s = (s3, some e) := by
          unfold upgrade_incompatible
          rw [if_pos hin]
          simp only [h1, h2]
        refine ⟨[Ev.evInstall] ++ t1 ++ t2, ?_⟩
        rw [hred]
        simp [ht2', ht1, List.append_assoc]
      | none =>
        rcases h3 : reinit_and_restore im o s3 with ⟨s4, oe3⟩
        obtain ⟨t3, ht3⟩ := reinit_trace im o s3
        rw [h3] at ht3
        have ht3' : s4.trace = s3.trace ++ t3 := ht3
        cases oe3 with
        | some e =>
          have hred : upgrade_incompatible name iv pv im o s =
              (logMsg (revertHint name) (logMsg (errorMsg e) s4),
                some UErr.needsRevert) := by
            unfold upgrade_incompatible
            rw [if_pos hin]
            simp only [h1, h2, h3]
          refine ⟨[Ev.evInstall] ++ t1 ++ t2 ++ t3, ?_⟩
          rw [hred]
          simp [ht3', ht2', ht1, List.append_assoc]
        | none =>
          cases hrst : o.restartOk
          · have htr : (upgrade_incompatible name iv pv im o s).1.trace =
                s4.trace ++ [Ev.evRemoveMarker, Ev.evCreateService o.serviceOk] := by
              unfold upgrade_incompatible
              rw [if_pos hin]
              simp only [h1, h2, h3]
              cases hsv : o.serviceOk <;> simp [hrst, hsv, emit, logMsg]
            refine ⟨[Ev.evInstall] ++ t1 ++ t2 ++ t3 ++
              [Ev.evRemoveMarker, Ev.evCreateService o.serviceOk], ?_⟩
            rw [htr]
            simp [ht3', ht2', ht1, List.append_assoc]
          · have htr : (upgrade_incompatible name iv pv im o s).1.trace =
                s4.trace ++ [Ev.evRemoveMarker, Ev.evCreateService o.serviceOk,
                  Ev.evRestart] := by
              unfold upgrade_incompatible
              rw [if_pos hin]
              simp only [h1, h2, h3]
              cases hsv : o.serviceOk <;> simp [hrst, hsv, emit, logMsg]
            refine ⟨[Ev.evInstall] ++ t1 ++ t2 ++ t3 ++
              [Ev.evRemoveMarker, Ev.evCreateService o.serviceOk, Ev.evRestart], ?_⟩
            rw [htr]
            simp [ht3', ht2', ht1, List.append_assoc]

/-- The trace of `upgrade_compatible` only ever grows. -/
theorem upgrade_compatible_trace (im : Nat) (o : Oracle) (s : St) :
    ∃ t, (upgrade_compatible im o s).1.trace = s.trace ++ t := by
  cases hin : o.installOk
  · exact ⟨[], by simp [upgrade_compatible, hin]⟩
  · cases hd : s.fs.dataDir with
    | none => exact ⟨[Ev.evInstall], by simp [upgrade_compatible, hin, hd, emit]⟩
    | some d =>
      cases hrst : o.restartOk
      · refine ⟨[Ev.evInstall, Ev.evWriteInstanceMeta, Ev.evCreateService o.serviceOk],
          ?_⟩
        cases hsv : o.serviceOk <;>
          simp [upgrade_compatible, hin, hd, hsv, hrst, emit, logMsg]
      · refine ⟨[Ev.evInstall, Ev.evWriteInstanceMeta, Ev.evCreateService o.serviceOk,
          Ev.evRestart], ?_⟩
        cases hsv : o.serviceOk <;>
          simp [upgrade_compatible, hin, hd, hsv, hrst, emit, logMsg]

/-- The boolean branch condition of `upgrade_local_cmd`, expressed as a
proposition. -/
theorem cond_iff (compatible force verOption fdr : Bool) :
    (compatible && !(force && verOption) && !fdr) = true ↔
      (compatible = true ∧ fdr = false ∧ ¬(force = true ∧ verOption = true)) := by
  cases compatible <;> cases force <;> cases verOption <;> cases fdr <;> decide

/-- C1: when the no-op rule did not apply (target newer than current, or force
set) and the project check passed, the local flow invokes the compatible-path
executor exactly when `is_compatible` holds, the explicit dump/restore flag is
unset, and force is not combined with an explicit version-selecting option; in
every other case it invokes the incompatible-path executor. The first trace
event records which executor ran. -/
theorem C1_path_classification (name : String) (instVer instMeta pkgVer : Nat)
    (compatible : Bool) (cmd : LocalCmd) (o : Oracle) (fs : Fs)
    (hnoop : ¬(pkgVer ≤ instVer ∧ cmd.force = false)) :
    ((upgrade_local_cmd name instVer instMeta [] false (some pkgVer) compatible cmd o
        (initSt fs)).1.trace.head? = some Ev.evPathCompatible ↔
      (compatible = true ∧ cmd.forceDumpRestore = false ∧
        ¬(cmd.force = true ∧ cmd.verOption = true))) ∧
    ((upgrade_local_cmd name instVer instMeta [] false (some pkgVer) compatible cmd o
        (initSt fs)).1.trace.head? = some Ev.evPathIncompatible ↔
      ¬(compatible = true ∧ cmd.forceDumpRestore = false ∧
        ¬(cmd.force = true ∧ cmd.verOption = true))) := by
  have hng : (decide (pkgVer ≤ instVer) && !cmd.force) = false := by
    cases hf : cmd.force
    · have hnl : ¬pkgVer ≤ instVer := fun hl => hnoop ⟨hl, hf⟩
      simp [hnl]
    · simp
  cases hc : (compatible && !(cmd.force && cmd.verOption) && !cmd.forceDumpRestore)
  · have hcond : ¬(compatible = true ∧ cmd.forceDumpRestore = false ∧
        ¬(cmd.force = true ∧ cmd.verOption = true)) := by
      intro hp
      have := (cond_iff compatible cmd.force cmd.verOption cmd.forceDumpRestore).mpr hp
      rw [this] at hc
      exact Bool.noConfusion hc
    rcases hx : upgrade_incompatible name instVer pkgVer instMeta o
        (emit Ev.evPathIncompatible (initSt fs)) with ⟨s1, oe⟩
    obtain ⟨t, ht⟩ := upgrade_incompatible_trace name instVer pkgVer instMeta o
        (emit Ev.evPathIncompatible (initSt fs))
    rw [hx] at ht
    have ht' : s1.trace = Ev.evPathIncompatible :: t := by
      have h0 : s1.trace = (emit Ev.evPathIncompatible (initSt fs)).trace ++ t := ht
      simpa using h0
    have hh : (upgrade_local_cmd name instVer instMeta [] false (some pkgVer) compatible
        cmd o (initSt fs)).1.trace.head? = some Ev.evPathIncompatible := by
      cases oe with
      | none =>
        have hred : upgrade_local_cmd name instVer instMeta [] false (some pkgVer)
            compatible cmd o (initSt fs) = (s1, Except.ok LocalOutcome.upgraded) := by
          simp [upgrade_local_cmd, hng, hc, hx]
          intro h1 h2 h3
          refine absurd ⟨h1, h3, ?_⟩ hcond
          rcases h2 with h | h <;> simp [h]
        rw [hred]
        simp [ht']
      | some e =>
        have hred : upgrade_local_cmd name instVer instMeta [] false (some pkgVer)
            compatible cmd o (initSt fs) = (s1, Except.error e) := by
          simp [upgrade_local_cmd, hng, hc, hx]
          intro h1 h2 h3
          refine absurd ⟨h1, h3, ?_⟩ hcond
          rcases h2 with h | h <;> simp [h]
        rw [hred]
        simp [ht']
    rw [hh]
    exact ⟨iff_of_false (by simp) hcond, iff_of_true rfl hcond⟩
  · have hcond : compatible = true ∧ cmd.forceDumpRestore = false ∧
        ¬(cmd.force = true ∧ cmd.verOption = true) :=
      (cond_iff compatible cmd.force cmd.verOption cmd.forceDumpRestore).mp hc
    rcases hx : upgrade_compatible instMeta o (emit Ev.evPathCompatible (initSt fs))
      with ⟨s1, oe⟩
    obtain ⟨t, ht⟩ := upgrade_compatible_trace instMeta o
      (emit Ev.evPathCompatible (initSt fs))
    rw [hx] at ht
    have ht' : s1.trace = Ev.evPathCompatible :: t := by
      have h0 : s1.trace = (emit Ev.evPathCompatible (initSt fs)).trace ++ t := ht
      simpa using h0
    have hor : cmd.force = false ∨ cmd.verOption = false := by
      cases hf : cmd.force
      · exact Or.inl rfl
      · cases hv : cmd.verOption
        · exact Or.inr rfl
        · exact absurd ⟨hf, hv⟩ hcond.2.2
    have hh : (upgrade_local_cmd name instVer instMeta [] false (some pkgVer) compatible
        cmd o (initSt fs)).1.trace.head? = some Ev.evPathCompatible := by
      cases oe with
      | none =>
        have hred : upgrade_local_cmd name instVer instMeta [] false (some pkgVer)
            compatible cmd o (initSt fs) = (s1, Except.ok LocalOutcome.upgraded) := by
          simp [upgrade_local_cmd, hng, hc, hx]
          intro himp
          have hft := himp hcond.1 hor
          rw [hcond.2.1] at hft
          exact Bool.noConfusion hft
        rw [hred]
        simp [ht']
      | some e =>
        have hred : upgrade_local_cmd name instVer instMeta [] false (some pkgVer)
            compatible cmd o (initSt fs) = (s1, Except.error e) := by
          simp [upgrade_local_cmd, hng, hc, hx]
          intro himp
          have hft := himp hcond.1 hor
          rw [hcond.2.1] at hft
          exact Bool.noConfusion hft
        rw [hred]
        simp [ht']
    rw [hh]
    exact ⟨iff_of_true rfl hcond, iff_of_false (by simp) (fun hn => hn hcond)⟩

/-- C1 witness: target 5 over current 3; with a compatible pair and no
overriding flags the compatible executor runs, and flipping the
dump/restore flag on the same pair selects the incompatible executor. -/
theorem C1_path_classification_witness :
    ((upgrade_local_cmd "inst1" 3 7 [] false (some 5) true ⟨false, false, false⟩ allOk
        (initSt fsLive)).1.trace.head? = some Ev.evPathCompatible ↔
      ((true : Bool) = true ∧ (false : Bool) = false ∧
        ¬((false : Bool) = true ∧ (false : Bool) = true))) ∧
    ((upgrade_local_cmd "inst1" 3 7 [] false (some 5) true ⟨false, false, false⟩ allOk
        (initSt fsLive)).1.trace.head? = some Ev.evPathIncompatible ↔
      ¬((true : Bool) = true ∧ (false : Bool) = false ∧
        ¬((false : Bool) = true ∧ (false : Bool) = true))) :=
  C1_path_classification "inst1" 3 7 5 true ⟨false, false, false⟩ allOk fsLive (by decide)

end EdgedbUpgrade
